import Mathlib

set_option maxRecDepth 8000

/-!
Shallow embedding of the data-cleaning-bot backend
(`backend/utils.py`, `backend/cleaning_logic.py`, `backend/ai_report.py`).

A pandas cell is modelled as a tagged variant: absent (NaN), a numeric
value (modelled as a rational), or a text value.  A dataset is a header
plus a rectangular list of rows (pandas DataFrames are always
rectangular).  Library calls (`pd.to_numeric`, `pd.to_datetime`,
`Series.quantile`, `Series.median`, `Series.mode`) are modelled by
executable Lean functions documented at their definitions.
-/

/-- Fuel-driven Euclidean gcd.  `Rat`'s arithmetic goes through
`Nat.gcd`, which is defined by well-founded recursion and does not
reduce inside the kernel, so `decide` cannot evaluate it; this
structural version reduces.  Fuel `m + 1` suffices because the first
argument strictly decreases. -/
def gcdF : Nat → Nat → Nat → Nat
  | 0, _, n => n
  | _ + 1, 0, n => n
  | f + 1, m + 1, n => gcdF f (n % (m + 1)) (m + 1)

def natGcd (m n : Nat) : Nat := gcdF (m + 1) m n

/-- Executable rational numbers: numerator and positive denominator,
kept normalized by construction (every value is built through `mkQ`
or has denominator 1).  This is the model of a Python/numpy float at
the precision the claims are stated (all quantities the repository
computes on the claims' inputs are exact in rational arithmetic). -/
structure Qv where
  n : Int
  d : Int
deriving DecidableEq

instance (k : Nat) : OfNat Qv k := ⟨⟨k, 1⟩⟩

/-- Build a normalized rational from a (nonzero-denominator) pair. -/
def mkQ (a b : Int) : Qv :=
  let s : Int := if b < 0 then -1 else 1
  let a1 := s * a
  let b1 := s * b
  let g : Int := Int.ofNat (natGcd a1.natAbs b1.natAbs)
  if g = 0 then ⟨0, 1⟩ else ⟨a1 / g, b1 / g⟩

def Qv.add (x y : Qv) : Qv := mkQ (x.n * y.d + y.n * x.d) (x.d * y.d)

def Qv.sub (x y : Qv) : Qv := mkQ (x.n * y.d - y.n * x.d) (x.d * y.d)

def Qv.mul (x y : Qv) : Qv := mkQ (x.n * y.n) (x.d * y.d)

/-- Division; division by zero gives 0 (never exercised). -/
def Qv.div (x y : Qv) : Qv := if y.n = 0 then ⟨0, 1⟩ else mkQ (x.n * y.d) (x.d * y.n)

def Qv.ble (x y : Qv) : Bool := x.n * y.d ≤ y.n * x.d

def Qv.blt (x y : Qv) : Bool := x.n * y.d < y.n * x.d

/-- Floor of a rational as an integer (denominators are positive). -/
def Qv.floorInt (x : Qv) : Int := x.n.fdiv x.d

def Qv.ofNat (k : Nat) : Qv := ⟨k, 1⟩

/-- Interpretation of an executable rational as a Mathlib rational,
used only inside theorem statements. -/
def Qv.toRat (x : Qv) : ℚ := (x.n : ℚ) / (x.d : ℚ)

inductive Value where
  | absent
  | num (q : Qv)
  | str (s : String)
deriving DecidableEq

def Value.isAbsent : Value → Bool
  | .absent => true
  | _ => false

def Value.isStr : Value → Bool
  | .str _ => true
  | _ => false

def Value.isNum : Value → Bool
  | .num _ => true
  | _ => false

/-- Digit characters to a natural number (no sign). -/
def natOfDigits (cs : List Char) : Nat :=
  cs.foldl (fun a c => a * 10 + (c.toNat - 48)) 0

def allDigits (cs : List Char) : Bool :=
  !cs.isEmpty && cs.all Char.isDigit

def isWsChar (c : Char) : Bool :=
  c == ' ' || c == '\t' || c == '\n' || c == '\r'

/-- Strip leading and trailing whitespace from a character list
(model of Python `str.strip()` / pandas whitespace handling for the
whitespace kinds the repository exercises). -/
def trimChars (cs : List Char) : List Char :=
  ((cs.dropWhile isWsChar).reverse.dropWhile isWsChar).reverse

/-- Split a character list on a separator character (kernel-reducible
replacement for `String.splitOn`). -/
def splitOnChar (sep : Char) (cs : List Char) : List (List Char) :=
  cs.foldr
    (fun c acc =>
      match acc with
      | [] => [[c]]
      | g :: gs => if c == sep then [] :: g :: gs else (c :: g) :: gs)
    [[]]

/-- Model of `pd.to_numeric` on a text value: optional sign, decimal
digits, optional single decimal point (exponents are not modelled; the
repository never exercises them).  pandas strips surrounding
whitespace, hence the trim. -/
def parseNumStr (s : String) : Option Qv :=
  let cs := trimChars s.data
  let sgnBody : Int × List Char :=
    match cs with
    | '-' :: t => (-1, t)
    | '+' :: t => (1, t)
    | _ => (1, cs)
  match splitOnChar '.' sgnBody.2 with
  | [ip] => if allDigits ip then some (mkQ (sgnBody.1 * (natOfDigits ip : Int)) 1) else none
  | [ip, fp] =>
      if (ip.all Char.isDigit && fp.all Char.isDigit) && (!ip.isEmpty || !fp.isEmpty) then
        some (mkQ (sgnBody.1 * ((natOfDigits ip : Int) * (10 : Int) ^ fp.length + (natOfDigits fp : Int)))
          ((10 : Int) ^ fp.length))
      else none
  | _ => none

/-- `pd.to_numeric(x, errors='coerce')` on one cell: absent stays
unparsed (NaN), numbers parse to themselves, text parses per
`parseNumStr`. -/
def toNumeric : Value → Option Qv
  | .absent => none
  | .num q => some q
  | .str s => parseNumStr s

def daysInMonth (y m : Nat) : Nat :=
  if m = 2 then (if (y % 4 == 0 && y % 100 != 0) || y % 400 == 0 then 29 else 28)
  else if m == 4 || m == 6 || m == 9 || m == 11 then 30
  else 31

/-- Zero-pad a (month/day) number to two digits. -/
def pad2 (n : Nat) : String :=
  if n < 10 then "0" ++ toString n else toString n

/-- Calendar-validate a year/month/day triple and render it in the
canonical `YYYY-MM-DD` form produced by `dt.strftime` in the source. -/
def dateCanon (y m d : Nat) : Option String :=
  if 1 ≤ y && y ≤ 9999 && 1 ≤ m && m ≤ 12 && 1 ≤ d && d ≤ daysInMonth y m then
    some (toString y ++ "-" ++ pad2 m ++ "-" ++ pad2 d)
  else none

/-- Model of `pd.to_datetime` string parsing for the formats the
repository exercises: ISO `YYYY-M-D` and US `M/D/YYYY` (pandas infers
month-first for slash dates).  The result is the canonical rendering
of the parsed calendar date. -/
def parseDateStr (s : String) : Option String :=
  match splitOnChar '-' s.data with
  | [ys, ms, ds] =>
      if allDigits ys && ys.length = 4 &&
         allDigits ms && ms.length ≤ 2 &&
         allDigits ds && ds.length ≤ 2 then
        dateCanon (natOfDigits ys) (natOfDigits ms) (natOfDigits ds)
      else none
  | _ =>
      match splitOnChar '/' s.data with
      | [ms, ds, ys] =>
          if allDigits ys && ys.length = 4 &&
             allDigits ms && ms.length ≤ 2 &&
             allDigits ds && ds.length ≤ 2 then
            dateCanon (natOfDigits ys) (natOfDigits ms) (natOfDigits ds)
          else none
      | _ => none

/-- `pd.to_datetime(x, errors='coerce')` on one cell.  Absent cells
give NaT.  Numeric cells (nanosecond-epoch interpretation) are not
modelled: no claim exercises a numeric value inside a date-classified
column, since the numeric test precedes the date test. -/
def pdToDatetime : Value → Option String
  | .str s => parseDateStr s
  | _ => none

/-- Non-absent values of a column (`series.dropna()`). -/
def nonNullOf (col : List Value) : List Value :=
  col.filter (fun v => !v.isAbsent)

/-- First occurrence of each distinct value, in order (`Series.unique()`).
Defined structurally with an accumulator of already-seen values so the
kernel can evaluate it (Mathlib's `List.dedup` goes through `pwFilter`,
which gets stuck). -/
def dedupGo : List Value → List Value → List Value
  | _, [] => []
  | seen, v :: vs =>
      if v ∈ seen then dedupGo seen vs
      else v :: dedupGo (v :: seen) vs

def uniqueVals (l : List Value) : List Value := dedupGo [] l

/-- Count of cells of the whole column that coerce numerically
(`pd.to_numeric(series, errors='coerce').notna().sum()`). -/
def numericSuccessCount (col : List Value) : Nat :=
  (col.filterMap toNumeric).length

/-- Count of cells of the whole column that parse as calendar dates
(`pd.to_datetime(series, errors='coerce').notna().sum()`). -/
def dateSuccessCount (col : List Value) : Nat :=
  (col.filterMap pdToDatetime).length

/-- `backend/utils.py` `detect_column_type`.  The source compares
`count > len(non_null) * 0.8` and `unique_ratio < 0.5` in floating
point; for an integer count against 0.8·n and 0.5 these comparisons
are exact, so they are stated with exact integer scaling
(`5*count > 4*n`, `2*distinct < n`). -/
def detect_column_type (col : List Value) : String :=
  let nn := nonNullOf col
  if nn.length = 0 then "unknown"
  else if numericSuccessCount col * 5 > nn.length * 4 then "numeric"
  else if dateSuccessCount col * 5 > nn.length * 4 then "date"
  else if (uniqueVals nn).length * 2 < nn.length then "categorical"
  else "string"

/-- `backend/utils.py` `clean_string`: strip then lowercase. -/
def clean_string (s : String) : String :=
  String.mk ((trimChars s.data).map Char.toLower)

/-- The per-cell action of `trim_and_normalize_strings`: apply
`clean_string` if the value is a text instance, otherwise pass it
through unchanged. -/
def cleanVal : Value → Value
  | .str s => .str (clean_string s)
  | v => v








/-- Insertion into a sorted list of rationals. -/
def insertSorted (x : Qv) : List Qv → List Qv
  | [] => [x]
  | y :: ys => if Qv.ble x y then x :: y :: ys else y :: insertSorted x ys

/-- Ascending sort (structural insertion sort, so the kernel can
evaluate it; `List.mergeSort` is well-founded and cannot). -/
def sortQ (l : List Qv) : List Qv :=
  l.foldr insertSorted []

/-- `Series.median()` over the non-absent numeric values: `none` is
pandas' NaN result on an empty series. -/
def medianQ (l : List Qv) : Option Qv :=
  let s := sortQ l
  let n := s.length
  if n = 0 then none
  else if n % 2 = 1 then some (s.getD (n / 2) 0)
  else some (Qv.div (Qv.add (s.getD (n / 2 - 1) 0) (s.getD (n / 2) 0)) 2)

/-- `Series.quantile(q)` with the default linear interpolation:
position `(n-1)·q`, linear interpolation between the neighbouring
order statistics.  Callers only use it on nonempty lists. -/
def quantile (l : List Qv) (q : Qv) : Qv :=
  let s := sortQ l
  let n := s.length
  let pos := Qv.mul (Qv.sub (Qv.ofNat n) 1) q
  let i : Nat := pos.floorInt.toNat
  let lo := s.getD i 0
  let hi := s.getD (min (i + 1) (n - 1)) 0
  Qv.add lo (Qv.mul (Qv.sub pos (Qv.ofNat i)) (Qv.sub hi lo))

/-- Lexicographic comparison of character lists by code point (how
Python compares strings; kernel-reducible replacement for the
`String.lt` decidability instance). -/
def charListLt : List Char → List Char → Bool
  | [], [] => false
  | [], _ :: _ => true
  | _ :: _, [] => false
  | a :: as, b :: bs =>
      if a.toNat < b.toNat then true
      else if b.toNat < a.toNat then false
      else charListLt as bs

/-- Strict-weak order pandas uses when sorting the modal values of an
object column (numbers before text, then value order). -/
def valueLt : Value → Value → Bool
  | .num x, .num y => Qv.blt x y
  | .num _, .str _ => true
  | .str _, .num _ => false
  | .str x, .str y => charListLt x.data y.data
  | .absent, .absent => false
  | .absent, _ => true
  | _, .absent => false

def modeCount (l : List Value) (v : Value) : Nat :=
  (l.filter (fun u => decide (u = v))).length

def chooseMode (l : List Value) (best v : Value) : Value :=
  if modeCount l best < modeCount l v then v
  else if (modeCount l v == modeCount l best) && valueLt v best then v
  else best

/-- `Series.mode()[0]`: the first (smallest) among the most frequent
non-absent values, `none` when the series has no non-absent value
(pandas returns an empty mode series there). -/
def mode (l : List Value) : Option Value :=
  match uniqueVals (nonNullOf l) with
  | [] => none
  | c :: cs => some (cs.foldl (chooseMode l) c)

/-- Forward fill: each absent cell takes the nearest preceding
non-absent value (the accumulator), as `fillna(method="ffill")`. -/
def ffillGo : Option Value → List Value → List Value
  | _, [] => []
  | acc, v :: vs =>
      if v.isAbsent then (acc.getD v) :: ffillGo acc vs
      else v :: ffillGo (some v) vs

def ffillL (col : List Value) : List Value := ffillGo none col

/-- The forward-fill accumulator after a list has been processed (the
last non-absent value, if any); proof-side companion of `ffillGo`. -/
def accAfter (acc : Option Value) (xs : List Value) : Option Value :=
  xs.foldl (fun a v => if v.isAbsent then a else some v) acc

/-- Backward fill, as `fillna(method="bfill")`. -/
def bfillL (col : List Value) : List Value :=
  (ffillGo none col.reverse).reverse

/-- Element-wise pandas `!=` between two series: any comparison that
involves NaN is True (in particular NaN != NaN is True), otherwise
value inequality. -/
def pandasNe (a b : Value) : Bool :=
  a.isAbsent || b.isAbsent || decide (a ≠ b)

def pandasNeCount (a b : List Value) : Nat :=
  ((a.zip b).filter (fun p => pandasNe p.1 p.2)).length

/-- A column has pandas `object` dtype after `read_csv` exactly when
it holds at least one text cell (purely numeric or purely absent
columns are numeric dtype). -/
def isObjectCol (col : List Value) : Bool :=
  col.any (fun v => v.isStr)

/-- A column has a numeric dtype (`select_dtypes(include=[np.number])`,
`pd.api.types.is_numeric_dtype`) exactly when no cell is text. -/
def isNumericDtype (col : List Value) : Bool :=
  col.all (fun v => !v.isStr)

/-- One cell of `pd.to_datetime(col).dt.strftime("%Y-%m-%d")`: parsed
cells become their canonical rendering, parse failures (NaT) become
absent. -/
def convertDateValue (v : Value) : Value :=
  match pdToDatetime v with
  | some s => .str s
  | none => .absent

/-- Per-column body of `fix_dates` (`cleaning_logic.py` lines 98-111):
if the classifier says `date`, convert when the parse-success rate
over all rows exceeds 0.7 (`success_rate > 0.7` compared exactly as
`10·successes > 7·rows`), else leave the column as is.  The flag
records whether `date_columns_fixed` was incremented for the column. -/
def fixDatesCol (col : List Value) : List Value × Bool :=
  if detect_column_type col = "date" then
    if dateSuccessCount col * 10 > 7 * col.length then
      (col.map convertDateValue, true)
    else (col, false)
  else (col, false)

/-- Per-column body of `handle_missing_values` (`cleaning_logic.py`
lines 134-171).  Returns the new column and the number the stage adds
to `missing_values_handled`. -/
def handle_missing_col (col : List Value) : List Value × Nat :=
  let missingCount := (col.filter (fun v => v.isAbsent)).length
  if missingCount = 0 then (col, 0)
  else if isNumericDtype col then
    match medianQ (col.filterMap toNumeric) with
    | some m => (col.map (fun v => if v.isAbsent then .num m else v), missingCount)
    | none =>
        match mode col with
        | some mv => (col.map (fun v => if v.isAbsent then mv else v), missingCount)
        | none => (col, 0)
  else if detect_column_type col = "date" then
    (bfillL (ffillL col), missingCount)
  else
    match mode col with
    | some mv => (col.map (fun v => if v.isAbsent then mv else v), missingCount)
    | none => (col.map (fun v => if v.isAbsent then .str "" else v), missingCount)

/-- Per-column body of `detect_and_replace_outliers` (`cleaning_logic.py`
lines 213-229): IQR bounds from linear-interpolation quartiles, strict
outliers replaced by the column median computed before replacement.
Absent cells never satisfy the mask (NaN comparisons are False). -/
def outliersCol (col : List Value) : List Value × Nat :=
  let nums := col.filterMap toNumeric
  if nums.isEmpty then (col, 0)
  else
    let q1 := quantile nums (mkQ 1 4)
    let q3 := quantile nums (mkQ 3 4)
    let iqr := Qv.sub q3 q1
    let lowerBound := Qv.sub q1 (Qv.mul (mkQ 3 2) iqr)
    let upperBound := Qv.add q3 (Qv.mul (mkQ 3 2) iqr)
    let mask : Value → Bool := fun v =>
      match v with
      | .num x => Qv.blt x lowerBound || Qv.blt upperBound x
      | _ => false
    let outlierCount := (col.filter mask).length
    if 0 < outlierCount then
      let m := (medianQ nums).getD 0
      (col.map (fun v => if mask v then .num m else v), outlierCount)
    else (col, 0)




/-- A DataFrame: named ordered columns over rectangular rows. -/
structure Dataset where
  header : List String
  rows : List (List Value)
deriving DecidableEq

/-- Column `j` of a row list (`df[col]`). -/
def colAt (rows : List (List Value)) (j : Nat) : List Value :=
  rows.map (fun r => r.getD j Value.absent)

/-- The columns of a dataset in header order. -/
def colsOf (df : Dataset) : List (List Value) :=
  (List.range df.header.length).map (fun j => colAt df.rows j)

/-- Rebuild rectangular rows from a list of columns; inverse of
`colsOf` on rectangular data.  Stages of the source assign whole
columns back into the frame, which this models. -/
def rebuild (nrows : Nat) (cols : List (List Value)) : List (List Value) :=
  (List.range nrows).map (fun i => cols.map (fun c => c.getD i Value.absent))

/-- One entry of the append-only step log. -/
structure CleanStep where
  step : String
  description : String
deriving DecidableEq

/-- The pipeline summary counters (`DataCleaningPipeline.summary`). -/
structure Summary where
  original_rows : Nat
  cleaned_rows : Nat
  rows_removed : Nat
  columns : Nat
  missing_values_handled : Nat
  outliers_replaced : Nat
  date_columns_fixed : Nat
  duplicates_removed : Nat
deriving DecidableEq

/-- `trim_and_normalize_strings` (`cleaning_logic.py` lines 57-88):
apply `clean_string` to the text cells of every object-dtype column;
the returned number is the accumulated `(original != df[col]).sum()`
over those columns, which the stage reports in its step description. -/
def trim_and_normalize_strings (df : Dataset) : Dataset × Nat :=
  let cols := colsOf df
  let newCols := cols.map (fun c => if isObjectCol c then c.map cleanVal else c)
  let cnt := (cols.map (fun c => if isObjectCol c then pandasNeCount c (c.map cleanVal) else 0)).sum
  ({ df with rows := rebuild df.rows.length newCols }, cnt)

/-- `fix_dates` (`cleaning_logic.py` lines 90-120): per-column date
conversion; the number is the stage's `date_columns_fixed`. -/
def fix_dates (df : Dataset) : Dataset × Nat :=
  let results := (colsOf df).map fixDatesCol
  ({ df with rows := rebuild df.rows.length (results.map (fun p => p.1)) },
   (results.filter (fun p => p.2)).length)

/-- `handle_missing_values` (`cleaning_logic.py` lines 122-181); the
number is the stage's `missing_values_handled`. -/
def handle_missing_values (df : Dataset) : Dataset × Nat :=
  let results := (colsOf df).map handle_missing_col
  ({ df with rows := rebuild df.rows.length (results.map (fun p => p.1)) },
   (results.map (fun p => p.2)).sum)

/-- `drop_duplicates(keep='first')`: keep the first occurrence of each
row (pandas treats NaN cells as equal when comparing rows). -/
def dropDupsGo : List (List Value) → List (List Value) → List (List Value)
  | _, [] => []
  | seen, r :: rs =>
      if r ∈ seen then dropDupsGo seen rs
      else r :: dropDupsGo (r :: seen) rs

/-- `remove_duplicates` (`cleaning_logic.py` lines 183-201); the
number is the stage's `duplicates_removed`. -/
def remove_duplicates (df : Dataset) : Dataset × Nat :=
  let rows2 := dropDupsGo [] df.rows
  ({ df with rows := rows2 }, df.rows.length - rows2.length)

/-- `detect_and_replace_outliers` (`cleaning_logic.py` lines 203-238):
IQR replacement on the numeric-dtype columns only; the number is the
stage's `outliers_replaced`. -/
def detect_and_replace_outliers (df : Dataset) : Dataset × Nat :=
  let results := (colsOf df).map (fun c => if isNumericDtype c then outliersCol c else (c, 0))
  ({ df with rows := rebuild df.rows.length (results.map (fun p => p.1)) },
   (results.map (fun p => p.2)).sum)

/-- `run_pipeline` (`cleaning_logic.py` lines 251-264) on an already
loaded dataset: the five stages in their fixed order, the step log,
and the summary produced by `load_csv`/each stage/`finalize`. -/
def run_pipeline (df : Dataset) : Dataset × List CleanStep × Summary :=
  let t := trim_and_normalize_strings df
  let fd := fix_dates t.1
  let hm := handle_missing_values fd.1
  let rd := remove_duplicates hm.1
  let ou := detect_and_replace_outliers rd.1
  let d5 := ou.1
  (d5,
   [{ step := "load_csv",
      description := "Loaded CSV with " ++ toString df.rows.length ++ " rows and " ++ toString df.header.length ++ " columns" },
    { step := "trim_and_normalize",
      description := "Trimmed and normalized " ++ toString t.2 ++ " string values" },
    { step := "fix_dates",
      description := "Fixed " ++ toString fd.2 ++ " date columns to YYYY-MM-DD format" },
    { step := "handle_missing",
      description := "Handled " ++ toString hm.2 ++ " missing values" },
    { step := "remove_duplicates",
      description := "Removed " ++ toString rd.2 ++ " duplicate rows" },
    { step := "detect_outliers",
      description := "Detected and replaced " ++ toString ou.2 ++ " outliers using IQR method" }],
   { original_rows := df.rows.length,
     cleaned_rows := d5.rows.length,
     rows_removed := df.rows.length - d5.rows.length,
     columns := df.header.length,
     missing_values_handled := hm.2,
     outliers_replaced := ou.2,
     date_columns_fixed := fd.2,
     duplicates_removed := rd.2 })

/-- Step 3 of the generated script's `clean_data` (`cleaning_logic.py`
lines 347-360): dispatch on the classifier instead of the dtype, with
only a `numeric` and a `categorical` branch — date, string and unknown
columns are left alone.  (`df[col].median()` is modelled as the median
of the numeric cells; on an object-dtype column the real script would
raise, a path no theorem below exercises.) -/
def scriptMissingCol (col : List Value) : List Value :=
  let missingCount := (col.filter (fun v => v.isAbsent)).length
  if missingCount = 0 then col
  else if detect_column_type col = "numeric" then
    match medianQ (col.filterMap toNumeric) with
    | some m => col.map (fun v => if v.isAbsent then .num m else v)
    | none => col
  else if detect_column_type col = "categorical" then
    match mode col with
    | some mv => col.map (fun v => if v.isAbsent then mv else v)
    | none => col
  else col

/-- The generated script's `clean_data` (`cleaning_logic.py` lines
319-390) applied to a loaded dataset: its five steps.  Steps 1, 2, 4
and 5 replicate the live stages (same classifier, thresholds and IQR
logic); step 3 is `scriptMissingCol`. -/
def script_clean_data (df : Dataset) : Dataset :=
  let s1cols := (colsOf df).map (fun c => if isObjectCol c then c.map cleanVal else c)
  let d1 : Dataset := { df with rows := rebuild df.rows.length s1cols }
  let d2 : Dataset :=
    { d1 with rows := rebuild d1.rows.length ((colsOf d1).map (fun c => (fixDatesCol c).1)) }
  let d3 : Dataset :=
    { d2 with rows := rebuild d2.rows.length ((colsOf d2).map scriptMissingCol) }
  let d4 : Dataset := { d3 with rows := dropDupsGo [] d3.rows }
  let s5cols := (colsOf d4).map (fun c => if isNumericDtype c then (outliersCol c).1 else c)
  { d4 with rows := rebuild d4.rows.length s5cols }

/-- Lowercasing used by `ai_provider.lower()` (kernel-reducible
replacement for `String.toLower`). -/
def lowerStr (s : String) : String :=
  String.mk (s.data.map Char.toLower)

/-- Round to the nearest integer, ties to even (the rounding Python's
fixed-point formatting applies). -/
def roundTiesEven (x : Qv) : Int :=
  let fl := x.floorInt
  let fr := Qv.sub x ⟨fl, 1⟩
  if Qv.blt (mkQ 1 2) fr then fl + 1
  else if Qv.blt fr (mkQ 1 2) then fl
  else if fl % 2 = 0 then fl else fl + 1

/-- Python `:.1f` formatting of a nonnegative rational. -/
def format1f (x : Qv) : String :=
  let t := roundTiesEven (Qv.mul x 10)
  toString (t / 10) ++ "." ++ toString ((t % 10).natAbs)

/-- The percentage of rows removed that `_fallback_report` interpolates:
`rows_removed / max(original_rows, 1) * 100` (`ai_report.py` line 155). -/
def fallbackPct (s : Summary) : Qv :=
  Qv.mul (Qv.div (Qv.ofNat s.rows_removed) (Qv.ofNat (max s.original_rows 1))) (Qv.ofNat 100)

/-- `_fallback_report` (`ai_report.py` lines 146-170): the templated
report built from the summary counters alone, after `.strip()`. -/
def fallback_report (s : Summary) : String :=
  "## Data Cleaning Report\n\n### Summary of Operations\n- **Original Records:** " ++
    toString s.original_rows ++
  "\n- **Cleaned Records:** " ++ toString s.cleaned_rows ++
  "\n- **Records Removed:** " ++ toString s.rows_removed ++
    " (" ++ format1f (fallbackPct s) ++ "%)" ++
  "\n\n### Data Quality Improvements\n- **Duplicate Rows Removed:** " ++
    toString s.duplicates_removed ++
  "\n- **Missing Values Fixed:** " ++ toString s.missing_values_handled ++
  "\n- **Outliers Replaced:** " ++ toString s.outliers_replaced ++
  "\n- **Date Formats Fixed:** " ++ toString s.date_columns_fixed ++
  "\n\n### Recommendations\n1. **Review the cleaned data** to ensure quality meets your requirements\n2. **Validate date conversions** to confirm accuracy\n3. **Check categorical values** for consistency\n4. **Consider domain-specific rules** that may need additional cleaning"

/-- `generate_ai_report` (`ai_report.py` lines 11-85).  The two
external narrative generators are modelled as capabilities passed in:
`none` models the call raising (missing key, network or API failure),
`some r` a successful narrative `r`.  Any failure of the selected
provider is caught and answered with the fallback report; an unknown
provider falls back directly. -/
def generate_ai_report (callOpenai callGroq : Option String)
    (ai_provider : String) (s : Summary) : String :=
  if lowerStr ai_provider = "openai" then
    callOpenai.getD (fallback_report s)
  else if lowerStr ai_provider = "groq" then
    callGroq.getD (fallback_report s)
  else fallback_report s

/-- The lines of the fixed literal that `generate_python_script`
(`cleaning_logic.py` lines 267-406) returns (the content of its
triple-quoted template, one entry per line; the trailing empty entry
is the template's final newline). -/
def pyScriptLines : List String :=
  [ "\"\"\""
  , "Auto-generated Data Cleaning Script"
  , "Generated by Data Cleaning Bot"
  , "This script replicates all the cleaning operations performed."
  , "\"\"\""
  , ""
  , "import pandas as pd"
  , "import numpy as np"
  , "import re"
  , "from datetime import datetime"
  , ""
  , ""
  , "def clean_string(value):"
  , "    \"\"\"Trim and normalize string values.\"\"\""
  , "    if not isinstance(value, str):"
  , "        return value"
  , "    value = value.strip().lower()"
  , "    return value"
  , ""
  , ""
  , "def detect_column_type(series):"
  , "    \"\"\"Detect if a column is numeric, categorical, or date.\"\"\""
  , "    non_null = series.dropna()"
  , "    if len(non_null) == 0:"
  , "        return \x27unknown\x27"
  , "    "
  , "    try:"
  , "        pd.to_numeric(series, errors=\x27coerce\x27)"
  , "        if pd.to_numeric(series, errors=\x27coerce\x27).notna().sum() > len(non_null) * 0.8:"
  , "            return \x27numeric\x27"
  , "    except:"
  , "        pass"
  , "    "
  , "    try:"
  , "        pd.to_datetime(series, errors=\x27coerce\x27)"
  , "        if pd.to_datetime(series, errors=\x27coerce\x27).notna().sum() > len(non_null) * 0.8:"
  , "            return \x27date\x27"
  , "    except:"
  , "        pass"
  , "    "
  , "    unique_ratio = len(non_null.unique()) / len(non_null)"
  , "    if unique_ratio < 0.5:"
  , "        return \x27categorical\x27"
  , "    return \x27string\x27"
  , ""
  , ""
  , "def clean_data(input_csv, output_csv=\x27cleaned_data.csv\x27):"
  , "    \"\"\""
  , "    Main cleaning function that applies all operations."
  , "    \"\"\""
  , "    print(\"Loading CSV...\")"
  , "    df = pd.read_csv(input_csv)"
  , "    original_rows = len(df)"
  , "    "
  , "    # Step 1: Trim and normalize strings"
  , "    print(\"Step 1: Trimming and normalizing strings...\")"
  , "    string_columns = df.select_dtypes(include=[\x27object\x27]).columns"
  , "    for col in string_columns:"
  , "        df[col] = df[col].apply("
  , "            lambda x: clean_string(x) if isinstance(x, str) else x"
  , "        )"
  , "    "
  , "    # Step 2: Fix dates"
  , "    print(\"Step 2: Fixing date formats...\")"
  , "    for col in df.columns:"
  , "        if detect_column_type(df[col]) == \x27date\x27:"
  , "            try:"
  , "                converted = pd.to_datetime(df[col], errors=\x27coerce\x27, infer_datetime_format=True)"
  , "                success_rate = converted.notna().sum() / len(df)"
  , "                if success_rate > 0.7:"
  , "                    df[col] = converted.dt.strftime(\x27%Y-%m-%d\x27)"
  , "            except:"
  , "                pass"
  , "    "
  , "    # Step 3: Handle missing values"
  , "    print(\"Step 3: Handling missing values...\")"
  , "    for col in df.columns:"
  , "        missing_count = df[col].isna().sum()"
  , "        if missing_count > 0:"
  , "            col_type = detect_column_type(df[col])"
  , "            if col_type == \x27numeric\x27:"
  , "                median_val = df[col].median()"
  , "                if not pd.isna(median_val):"
  , "                    df[col].fillna(median_val, inplace=True)"
  , "            elif col_type == \x27categorical\x27:"
  , "                mode_val = df[col].mode()"
  , "                if len(mode_val) > 0:"
  , "                    df[col].fillna(mode_val[0], inplace=True)"
  , "    "
  , "    # Step 4: Remove duplicates"
  , "    print(\"Step 4: Removing duplicates...\")"
  , "    duplicates_before = len(df)"
  , "    df = df.drop_duplicates(keep=\x27first\x27)"
  , "    print(f\"Removed \x7bduplicates_before - len(df)\x7d duplicates\")"
  , "    "
  , "    # Step 5: Detect and replace outliers"
  , "    print(\"Step 5: Handling outliers (IQR method)...\")"
  , "    numeric_columns = df.select_dtypes(include=[np.number]).columns"
  , "    for col in numeric_columns:"
  , "        Q1 = df[col].quantile(0.25)"
  , "        Q3 = df[col].quantile(0.75)"
  , "        IQR = Q3 - Q1"
  , "        lower_bound = Q1 - 1.5 * IQR"
  , "        upper_bound = Q3 + 1.5 * IQR"
  , "        outlier_mask = (df[col] < lower_bound) | (df[col] > upper_bound)"
  , "        if outlier_mask.sum() > 0:"
  , "            median_val = df[col].median()"
  , "            df.loc[outlier_mask, col] = median_val"
  , "    "
  , "    # Save cleaned CSV"
  , "    print(f\"Saving cleaned data to \x7boutput_csv\x7d...\")"
  , "    df.to_csv(output_csv, index=False)"
  , "    "
  , "    print(f\"\\nCleaning Summary:\")"
  , "    print(f\"  Original rows: \x7boriginal_rows\x7d\")"
  , "    print(f\"  Cleaned rows: \x7blen(df)\x7d\")"
  , "    print(f\"  Rows removed: \x7boriginal_rows - len(df)\x7d\")"
  , "    print(f\"  Columns: \x7blen(df.columns)\x7d\")"
  , ""
  , ""
  , "if __name__ == \"__main__\":"
  , "    # Usage: python clean_data.py <input_csv> [output_csv]"
  , "    import sys"
  , "    if len(sys.argv) < 2:"
  , "        print(\"Usage: python clean_data.py <input_csv> [output_csv]\")"
  , "        sys.exit(1)"
  , "    "
  , "    input_file = sys.argv[1]"
  , "    output_file = sys.argv[2] if len(sys.argv) > 2 else \x27cleaned_data.csv\x27"
  , "    "
  , "    clean_data(input_file, output_file)"
  , "" ]

/-- `generate_python_script` (`cleaning_logic.py` lines 267-406): the
function takes the step log and the original column list but returns
the one fixed template string, using neither argument. -/
def generate_python_script (cleaning_steps : List CleanStep)
    (original_columns : List String) : String :=
  String.intercalate "\n" pyScriptLines

/-- Count of absent cells of a column (`df[col].isna().sum()`). -/
def absentCount (col : List Value) : Nat :=
  (col.filter (fun v => v.isAbsent)).length

/-- Count of cells whose content actually differs from its normalized
form (the quantity claim C8 says the String Normalizer reports). -/
def changedCount (col : List Value) : Nat :=
  (col.filter (fun v => decide (v ≠ cleanVal v))).length

/-- One text column `name = ["a", "b", "c", <missing>]`: the live
pipeline mode-fills the missing cell (and the fill then collides with
the first row and is dropped as a duplicate), while the generated
script's missing-value step skips `string`-classified columns. -/
def c1FailingInput : Dataset :=
  { header := [ "name" ],
    rows := [[Value.str "a"], [Value.str "b"], [Value.str "c"], [Value.absent]] }

/-- Three numeric columns over nine distinct rows.  The first run
replaces the two `y` outliers (100, 200) of the last two rows with the
median 0, which makes those rows identical; the second run therefore
drops one duplicate row and, on the shrunken `z` column, finds and
replaces further outliers. -/
def c2Input : Dataset :=
  { header := [ "x", "y", "z" ],
    rows :=
      [[Value.num 0, Value.num 0, Value.num 1],
       [Value.num 1, Value.num 0, Value.num 2],
       [Value.num 2, Value.num 0, Value.num 3],
       [Value.num 3, Value.num 0, Value.num 4],
       [Value.num 4, Value.num 0, Value.num 5],
       [Value.num 5, Value.num 0, Value.num 6],
       [Value.num 6, Value.num 0, Value.num 100],
       [Value.num 7, Value.num 100, Value.num 200],
       [Value.num 7, Value.num 200, Value.num 200]] }

/-- The worked numeric column of claim C5. -/
def c5Column : List Qv := [10, 12, 11, 13, 1000]

/-- The same column as pipeline cells. -/
def c5ValueColumn : List Value :=
  [Value.num 10, Value.num 12, Value.num 11, Value.num 13, Value.num 1000]

/-- A date-classified column: four parseable dates (two formats) and
one absent cell, so the all-rows success fraction is 4/5 > 0.7. -/
def c4WitnessColumn : List Value :=
  [Value.str "2023-01-05", Value.str "01/06/2023", Value.str "2023-01-07",
   Value.str "2023-01-08", Value.absent]

/-- Four rows with exactly two distinct non-numeric, non-date values:
the boundary uniqueness ratio 0.5. -/
def c6BoundaryColumn : List Value :=
  [Value.str "xx", Value.str "xx", Value.str "yy", Value.str "yy"]

/-- One object-dtype column `["a", <missing>]`: nothing changes under
normalization, yet pandas' `original != cleaned` comparison reports
the absent cell as a difference. -/
def c8Input : Dataset :=
  { header := [ "name" ], rows := [[Value.str "a"], [Value.absent]] }

/-- C10: the Script Synthesizer's output is completely independent of
both of its arguments — any two calls return the identical string. -/
theorem c10_script_constant (s1 : List CleanStep) (c1 : List String)
    (s2 : List CleanStep) (c2 : List String) :
    generate_python_script s1 c1 = generate_python_script s2 c2 := rfl

/-- C5 (counterexample): on the column [10,12,11,13,1000] the
linear-interpolation third quartile sits at position (5-1)·0.75 = 3 of
the sorted column [10,11,12,13,1000], i.e. Q3 = 13, not ≈ 12.5 as the
claim states. -/
theorem c5_counterexample :
    quantile c5Column (mkQ 3 4) = Qv.ofNat 13 ∧ Qv.ofNat 13 ≠ mkQ 25 2 :=
  ⟨by decide, by decide⟩

/-- C5 (amended): for [10,12,11,13,1000] the quartiles are Q1 = 11 and
Q3 = 13, so IQR = 2 and the upper bound is 16; 1000 is the only value
outside the bounds and is replaced with the median 12, with
outliers_replaced = 1. -/
theorem c5_amended :
    quantile c5Column (mkQ 1 4) = Qv.ofNat 11 ∧
    quantile c5Column (mkQ 3 4) = Qv.ofNat 13 ∧
    Qv.sub (quantile c5Column (mkQ 3 4)) (quantile c5Column (mkQ 1 4)) = Qv.ofNat 2 ∧
    Qv.add (quantile c5Column (mkQ 3 4))
        (Qv.mul (mkQ 3 2) (Qv.sub (quantile c5Column (mkQ 3 4)) (quantile c5Column (mkQ 1 4))))
      = Qv.ofNat 16 ∧
    medianQ c5Column = some (Qv.ofNat 12) ∧
    outliersCol c5ValueColumn
      = ([Value.num 10, Value.num 12, Value.num 11, Value.num 13, Value.num 12], 1) :=
  ⟨by decide, by decide, by decide, by decide, by decide, by decide⟩

/-- C1: the generated script is not behaviorally identical to the live
pipeline.  On the single text column ["a","b","c",missing] the live
pipeline mode-fills the missing cell with "a" and then removes the
resulting duplicate row, while the generated script's missing-value
step has no branch for string-classified columns and leaves the cell
absent, so the two cleaned datasets differ. -/
theorem c1_generated_script_diverges :
    (run_pipeline c1FailingInput).1.rows
        = [[Value.str "a"], [Value.str "b"], [Value.str "c"]] ∧
    (script_clean_data c1FailingInput).rows
        = [[Value.str "a"], [Value.str "b"], [Value.str "c"], [Value.absent]] ∧
    script_clean_data c1FailingInput ≠ (run_pipeline c1FailingInput).1 :=
  ⟨by decide, by decide, by decide⟩

/-- C2 (counterexample): the cleaned output of `c2Input` is not a
fixed point: the first run outputs 9 rows, and running the pipeline
again on that output removes 1 further duplicate (outlier replacement
made two rows identical), replaces 2 further outliers, and shrinks the
row count to 8. -/
theorem c2_counterexample :
    (run_pipeline c2Input).2.2.cleaned_rows = 9 ∧
    (run_pipeline (run_pipeline c2Input).1).2.2.duplicates_removed = 1 ∧
    (run_pipeline (run_pipeline c2Input).1).2.2.outliers_replaced = 2 ∧
    (run_pipeline (run_pipeline c2Input).1).2.2.cleaned_rows = 8 :=
  ⟨by decide, by decide, by decide, by decide⟩

/-- C7 (counterexample): a column of one non-numeric, non-date value
(all its values identical) is classified "string", not "categorical",
because its uniqueness ratio is 1. -/
theorem c7_counterexample :
    toNumeric (Value.str "hello") = none ∧
    pdToDatetime (Value.str "hello") = none ∧
    detect_column_type [Value.str "hello"] = "string" ∧
    detect_column_type [Value.str "hello"] ≠ "categorical" :=
  ⟨by decide, by decide, by decide, by decide⟩

/-- C8 (counterexample): on the column ["a", missing] no value's
content changes under normalization (changedCount 0), yet the stage
reports 1, because pandas' `original != cleaned` comparison counts the
absent cell (NaN != NaN is True). -/
theorem c8_counterexample :
    (trim_and_normalize_strings c8Input).2 = 1 ∧
    ((colsOf c8Input).map changedCount).sum = 0 :=
  ⟨by decide, by decide⟩

theorem length_rebuild (n : Nat) (cols : List (List Value)) :
    (rebuild n cols).length = n := by
  simp [rebuild]

theorem dropDupsGo_length_le (l : List (List Value)) :
    ∀ seen, (dropDupsGo seen l).length ≤ l.length := by
  induction l with
  | nil => intro seen; simp [dropDupsGo]
  | cons r rs ih =>
      intro seen
      simp only [dropDupsGo]
      split
      · exact Nat.le_succ_of_le (ih seen)
      · simpa using ih (r :: seen)

theorem trim_rows_length (df : Dataset) :
    (trim_and_normalize_strings df).1.rows.length = df.rows.length := by
  simp [trim_and_normalize_strings, length_rebuild]

theorem fix_dates_rows_length (df : Dataset) :
    (fix_dates df).1.rows.length = df.rows.length := by
  simp [fix_dates, length_rebuild]

theorem handle_missing_rows_length (df : Dataset) :
    (handle_missing_values df).1.rows.length = df.rows.length := by
  simp [handle_missing_values, length_rebuild]

theorem remove_duplicates_rows_length_le (df : Dataset) :
    (remove_duplicates df).1.rows.length ≤ df.rows.length := by
  simpa [remove_duplicates] using dropDupsGo_length_le df.rows []

theorem outliers_rows_length (df : Dataset) :
    (detect_and_replace_outliers df).1.rows.length = df.rows.length := by
  simp [detect_and_replace_outliers, length_rebuild]

theorem run_pipeline_header (df : Dataset) : (run_pipeline df).1.header = df.header := rfl

theorem run_pipeline_rows_length_le (df : Dataset) :
    (run_pipeline df).1.rows.length ≤ df.rows.length := by
  show (detect_and_replace_outliers (remove_duplicates (handle_missing_values (fix_dates
      (trim_and_normalize_strings df).1).1).1).1).1.rows.length ≤ df.rows.length
  rw [outliers_rows_length]
  calc (remove_duplicates (handle_missing_values (fix_dates
          (trim_and_normalize_strings df).1).1).1).1.rows.length
      ≤ (handle_missing_values (fix_dates
          (trim_and_normalize_strings df).1).1).1.rows.length :=
        remove_duplicates_rows_length_le _
    _ = df.rows.length := by
        rw [handle_missing_rows_length, fix_dates_rows_length, trim_rows_length]

/-- C2 (amended): re-running the pipeline on its own cleaned output
keeps the column set (hence the column count) unchanged and can only
shrink the row count, but the cleaned dataset need not be a fixed
point: the second run may remove further duplicate rows and replace
further outliers (see the counterexample). -/
theorem c2_amended (df : Dataset) :
    (run_pipeline (run_pipeline df).1).1.header = (run_pipeline df).1.header ∧
    (run_pipeline (run_pipeline df).1).1.rows.length ≤ (run_pipeline df).1.rows.length :=
  ⟨run_pipeline_header _, run_pipeline_rows_length_le _⟩

/-- C4: for every column the classifier marks as a date column, the
Date Normalizer either converts the whole column (every cell becomes
its canonical YYYY-MM-DD rendering, parse failures becoming absent)
and flags the `date_columns_fixed` increment — exactly when the
calendar-parse success fraction over all rows (absent cells included
in the denominator) exceeds 0.7 — or, when the fraction does not
exceed 0.7, leaves every cell exactly as it was with no increment. -/
theorem c4_date_normalizer_threshold (col : List Value)
    (h : detect_column_type col = "date") :
    (((dateSuccessCount col : ℚ) / (col.length : ℚ) > 7 / 10) →
        fixDatesCol col = (col.map convertDateValue, true)) ∧
    (¬ ((dateSuccessCount col : ℚ) / (col.length : ℚ) > 7 / 10) →
        fixDatesCol col = (col, false)) := by
  have hne : col ≠ [] := by
    intro hnil
    rw [hnil] at h
    exact absurd h (by decide)
  have hn : 0 < col.length := List.length_pos.mpr hne
  have key : ((dateSuccessCount col : ℚ) / (col.length : ℚ) > 7 / 10)
      ↔ dateSuccessCount col * 10 > 7 * col.length := by
    rw [gt_iff_lt, div_lt_div_iff₀ (by norm_num) (by exact_mod_cast hn)]
    constructor
    · intro hlt
      exact_mod_cast hlt
    · intro hlt
      exact_mod_cast hlt
  constructor
  · intro hgt
    rw [key] at hgt
    simp [fixDatesCol, h, hgt]
  · intro hle
    rw [key] at hle
    simp [fixDatesCol, h, hle]

theorem c4_witness :
    detect_column_type c4WitnessColumn = "date" ∧
    fixDatesCol c4WitnessColumn =
      ([Value.str "2023-01-05", Value.str "2023-01-06", Value.str "2023-01-07",
        Value.str "2023-01-08", Value.absent], true) := by
  refine ⟨by decide, ?_⟩
  have h := (c4_date_normalizer_threshold c4WitnessColumn (by decide)).1
  have hfrac : ((dateSuccessCount c4WitnessColumn : ℚ) / (c4WitnessColumn.length : ℚ) > 7 / 10) := by
    have h1 : dateSuccessCount c4WitnessColumn = 4 := by decide
    have h2 : c4WitnessColumn.length = 5 := by decide
    rw [h1, h2]
    norm_num
  rw [h hfrac]
  decide

/-- C6: for a column that fails both the numeric and the date test,
the classifier answers "categorical" exactly when the uniqueness ratio
(distinct non-absent values over non-absent values) is strictly below
0.5 and "string" otherwise; in particular the boundary column of four
rows with two distinct values (ratio exactly 0.5) is "string". -/
theorem c6_uniqueness_threshold (col : List Value)
    (h0 : (nonNullOf col).length ≠ 0)
    (h1 : ¬ numericSuccessCount col * 5 > (nonNullOf col).length * 4)
    (h2 : ¬ dateSuccessCount col * 5 > (nonNullOf col).length * 4) :
    ((detect_column_type col = "categorical" ↔
        ((uniqueVals (nonNullOf col)).length : ℚ) / ((nonNullOf col).length : ℚ) < 1 / 2) ∧
     (detect_column_type col = "string" ↔
        ¬ ((uniqueVals (nonNullOf col)).length : ℚ) / ((nonNullOf col).length : ℚ) < 1 / 2)) ∧
    detect_column_type c6BoundaryColumn = "string" := by
  have hn : 0 < (nonNullOf col).length := Nat.pos_of_ne_zero h0
  have key : (((uniqueVals (nonNullOf col)).length : ℚ) / ((nonNullOf col).length : ℚ) < 1 / 2)
      ↔ (uniqueVals (nonNullOf col)).length * 2 < (nonNullOf col).length := by
    rw [div_lt_div_iff₀ (by exact_mod_cast hn) (by norm_num)]
    constructor
    · intro hlt
      have hlt2 : ((uniqueVals (nonNullOf col)).length * 2 : ℚ)
          < 1 * ((nonNullOf col).length : ℚ) := by exact_mod_cast hlt
      rw [one_mul] at hlt2
      exact_mod_cast hlt2
    · intro hlt
      have hlt2 : ((uniqueVals (nonNullOf col)).length * 2 : ℚ)
          < ((nonNullOf col).length : ℚ) := by exact_mod_cast hlt
      rw [← one_mul ((nonNullOf col).length : ℚ)] at hlt2
      exact_mod_cast hlt2
  have hd : detect_column_type col =
      if (uniqueVals (nonNullOf col)).length * 2 < (nonNullOf col).length
      then "categorical" else "string" := by
    simp [detect_column_type, h0, h1, h2]
  refine ⟨⟨?_, ?_⟩, by decide⟩
  · rw [hd, key]
    by_cases hc : (uniqueVals (nonNullOf col)).length * 2 < (nonNullOf col).length
    · rw [if_pos hc]
      exact iff_of_true rfl hc
    · rw [if_neg hc]
      exact iff_of_false (by decide) hc
  · rw [hd, key]
    by_cases hc : (uniqueVals (nonNullOf col)).length * 2 < (nonNullOf col).length
    · rw [if_pos hc]
      exact iff_of_false (by decide) (not_not_intro hc)
    · rw [if_neg hc]
      exact iff_of_true rfl hc

theorem c6_witness :
    detect_column_type c6BoundaryColumn = "string" := by
  have h := ((c6_uniqueness_threshold c6BoundaryColumn (by decide) (by decide) (by decide)).1).2
  apply h.mpr
  have h1 : (uniqueVals (nonNullOf c6BoundaryColumn)).length = 2 := by decide
  have h2 : (nonNullOf c6BoundaryColumn).length = 4 := by decide
  rw [h1, h2]
  norm_num

theorem dedupGo_replicate_of_mem (v : Value) (n : Nat) :
    ∀ seen, v ∈ seen → dedupGo seen (List.replicate n v) = [] := by
  induction n with
  | zero =>
      intro seen hm
      simp [dedupGo]
  | succ k ih =>
      intro seen hm
      rw [List.replicate_succ]
      simp only [dedupGo]
      rw [if_pos hm]
      exact ih seen hm

theorem uniqueVals_replicate (v : Value) (n : Nat) (hn : n ≠ 0) :
    uniqueVals (List.replicate n v) = [v] := by
  cases n with
  | zero => exact absurd rfl hn
  | succ k =>
      rw [uniqueVals, List.replicate_succ]
      simp only [dedupGo]
      rw [if_neg (by simp)]
      rw [dedupGo_replicate_of_mem v k (v :: []) (by simp)]

/-- C7 (amended): for a column whose non-absent values are all equal
to one value v that is neither numeric- nor date-parseable (absent
cells allowed, at least one non-absent value present), the classifier
answers "categorical" exactly when there are at least three non-absent
values; with only one or two the uniqueness ratio is 1 or exactly 0.5,
which is not < 0.5, so it answers "string" instead. -/
theorem c7_amended (col : List Value) (v : Value)
    (hall : ∀ u ∈ col, u.isAbsent = false → u = v)
    (hnum : toNumeric v = none)
    (hdate : pdToDatetime v = none)
    (hne : nonNullOf col ≠ []) :
    (3 ≤ (nonNullOf col).length → detect_column_type col = "categorical") ∧
    ((nonNullOf col).length ≤ 2 → detect_column_type col = "string") := by
  have hnnall : ∀ u ∈ nonNullOf col, u = v := by
    intro u hu
    rw [nonNullOf, List.mem_filter] at hu
    exact hall u hu.1 (by simpa using hu.2)
  have hrep : nonNullOf col = List.replicate (nonNullOf col).length v :=
    List.eq_replicate_of_mem hnnall
  have h0 : (nonNullOf col).length ≠ 0 := fun h => hne (List.length_eq_zero.mp h)
  have hnone : ∀ u ∈ col, toNumeric u = none := by
    intro u hu
    cases u with
    | absent => rfl
    | num q =>
        rw [hall (Value.num q) hu rfl]
        exact hnum
    | str s =>
        rw [hall (Value.str s) hu rfl]
        exact hnum
  have hdnone : ∀ u ∈ col, pdToDatetime u = none := by
    intro u hu
    cases u with
    | absent => rfl
    | num q =>
        rw [hall (Value.num q) hu rfl]
        exact hdate
    | str s =>
        rw [hall (Value.str s) hu rfl]
        exact hdate
  have hnum0 : numericSuccessCount col = 0 := by
    rw [numericSuccessCount, List.filterMap_eq_nil_iff.mpr hnone, List.length_nil]
  have hdate0 : dateSuccessCount col = 0 := by
    rw [dateSuccessCount, List.filterMap_eq_nil_iff.mpr hdnone, List.length_nil]
  have huniq : uniqueVals (nonNullOf col) = [v] := by
    conv_lhs => rw [hrep]
    exact uniqueVals_replicate v _ h0
  have hd : detect_column_type col =
      if (uniqueVals (nonNullOf col)).length * 2 < (nonNullOf col).length
      then "categorical" else "string" := by
    rw [detect_column_type]
    rw [if_neg h0, if_neg (by omega : ¬ numericSuccessCount col * 5 > (nonNullOf col).length * 4),
      if_neg (by omega : ¬ dateSuccessCount col * 5 > (nonNullOf col).length * 4)]
  rw [hd, huniq, List.length_singleton]
  constructor
  · intro h3
    rw [if_pos (by omega)]
  · intro h2
    rw [if_neg (by omega)]

theorem c7_witness :
    detect_column_type [Value.absent, Value.str "xx", Value.str "xx", Value.str "xx"]
      = "categorical" :=
  (c7_amended [Value.absent, Value.str "xx", Value.str "xx", Value.str "xx"] (Value.str "xx")
    (by decide) (by decide) (by decide) (by decide)).1 (by decide)

theorem isAbsent_eq_true_iff (v : Value) : v.isAbsent = true ↔ v = Value.absent := by
  cases v <;> simp [Value.isAbsent]

theorem isStr_isAbsent_false (v : Value) (h : v.isStr = true) : v.isAbsent = false := by
  cases v <;> simp_all [Value.isStr, Value.isAbsent]

theorem mem_ffillGo_some (l : Value) (hl : l.isAbsent = false) (col : List Value) :
    ∀ u ∈ ffillGo (some l) col, u.isAbsent = false := by
  induction col generalizing l with
  | nil =>
      intro u hu
      simp [ffillGo] at hu
  | cons v vs ih =>
      intro u hu
      by_cases hv : v.isAbsent
      · rw [ffillGo, if_pos hv] at hu
        rcases List.mem_cons.mp hu with rfl | hmem
        · exact hl
        · exact ih l hl u hmem
      · rw [ffillGo, if_neg hv] at hu
        rcases List.mem_cons.mp hu with rfl | hmem
        · simpa using hv
        · exact ih v (by simpa using hv) u hmem

theorem ffillGo_none_structure (col : List Value)
    (h : ∃ v ∈ col, v.isAbsent = false) :
    ∃ k rest, ffillGo none col = List.replicate k Value.absent ++ rest ∧ rest ≠ [] ∧
      ∀ u ∈ rest, u.isAbsent = false := by
  induction col with
  | nil =>
      rcases h with ⟨v, hv, _⟩
      cases hv
  | cons v vs ih =>
      by_cases hv : v.isAbsent
      · have hv2 : v = Value.absent := (isAbsent_eq_true_iff v).mp hv
        have h2 : ∃ w ∈ vs, w.isAbsent = false := by
          rcases h with ⟨w, hw, hwa⟩
          rcases List.mem_cons.mp hw with rfl | hmem
          · rw [hv] at hwa
            cases hwa
          · exact ⟨w, hmem, hwa⟩
        rcases ih h2 with ⟨k, rest, heq, hne, hmem⟩
        refine ⟨k + 1, rest, ?_, hne, hmem⟩
        rw [ffillGo, if_pos hv, List.replicate_succ, List.cons_append, heq, hv2]
        rfl
      · refine ⟨0, v :: ffillGo (some v) vs, ?_, by simp, ?_⟩
        · rw [ffillGo, if_neg hv, List.replicate, List.nil_append]
        · intro u hu
          rcases List.mem_cons.mp hu with rfl | hmem
          · simpa using hv
          · exact mem_ffillGo_some v (by simpa using hv) vs u hmem

theorem accAfter_cons (acc : Option Value) (v : Value) (vs : List Value) :
    accAfter acc (v :: vs) = accAfter (if v.isAbsent then acc else some v) vs := rfl

theorem ffillGo_append (acc : Option Value) (xs ys : List Value) :
    ffillGo acc (xs ++ ys) = ffillGo acc xs ++ ffillGo (accAfter acc xs) ys := by
  induction xs generalizing acc with
  | nil => simp [ffillGo, accAfter]
  | cons v vs ih =>
      by_cases hv : v.isAbsent
      · rw [List.cons_append, ffillGo, if_pos hv, ffillGo, if_pos hv, List.cons_append, ih,
          accAfter_cons, if_pos hv]
      · rw [List.cons_append, ffillGo, if_neg hv, ffillGo, if_neg hv, List.cons_append, ih,
          accAfter_cons, if_neg hv]

theorem ffillGo_of_all_nonabsent (xs : List Value) (h : ∀ u ∈ xs, u.isAbsent = false) :
    ∀ acc, ffillGo acc xs = xs := by
  induction xs with
  | nil => intro acc; rfl
  | cons v vs ih =>
      intro acc
      have hv : v.isAbsent = false := h v (List.mem_cons_self v vs)
      rw [ffillGo, if_neg (by simp [hv]), ih (fun u hu => h u (List.mem_cons_of_mem v hu))]

theorem accAfter_of_nonempty : ∀ (xs : List Value), xs ≠ [] →
    (∀ u ∈ xs, u.isAbsent = false) →
    ∀ acc, ∃ l, accAfter acc xs = some l ∧ l.isAbsent = false := by
  intro xs
  induction xs with
  | nil =>
      intro hne
      exact absurd rfl hne
  | cons v vs ih =>
      intro _ h acc
      have hv : v.isAbsent = false := h v (List.mem_cons_self v vs)
      rw [accAfter, List.foldl_cons, if_neg (by simp [hv]), ← accAfter]
      cases vs with
      | nil => exact ⟨v, rfl, hv⟩
      | cons w ws =>
          exact ih (by simp) (fun u hu => h u (List.mem_cons_of_mem v hu)) (some v)

theorem bfill_ffill_no_absent (col : List Value)
    (h : ∃ v ∈ col, v.isAbsent = false) :
    ∀ u ∈ bfillL (ffillL col), u.isAbsent = false := by
  rcases ffillGo_none_structure col h with ⟨k, rest, heq, hne, hmem⟩
  rw [ffillL, heq, bfillL]
  intro u hu
  rw [List.mem_reverse, List.reverse_append, List.reverse_replicate, ffillGo_append] at hu
  have hrev : ∀ w ∈ rest.reverse, w.isAbsent = false := by
    intro w hw
    exact hmem w (List.mem_reverse.mp hw)
  have hrevne : rest.reverse ≠ [] := by simpa using hne
  rcases accAfter_of_nonempty rest.reverse hrevne hrev none with ⟨l, hacc, hl⟩
  rw [ffillGo_of_all_nonabsent rest.reverse hrev, hacc] at hu
  rcases List.mem_append.mp hu with h1 | h2
  · exact hrev u h1
  · exact mem_ffillGo_some l hl _ u h2

theorem mem_dedupGo (l : List Value) : ∀ seen x, x ∈ dedupGo seen l → x ∈ l := by
  induction l with
  | nil =>
      intro seen x hx
      simp [dedupGo] at hx
  | cons v vs ih =>
      intro seen x hx
      rw [dedupGo] at hx
      by_cases hv : v ∈ seen
      · rw [if_pos hv] at hx
        exact List.mem_cons_of_mem v (ih seen x hx)
      · rw [if_neg hv] at hx
        rcases List.mem_cons.mp hx with rfl | hmem
        · exact List.mem_cons_self _ _
        · exact List.mem_cons_of_mem v (ih _ x hmem)

theorem chooseMode_mem (l : List Value) (c v : Value) :
    chooseMode l c v = c ∨ chooseMode l c v = v := by
  rw [chooseMode]
  split
  · right; rfl
  · split
    · right; rfl
    · left; rfl

theorem foldl_chooseMode_mem (l : List Value) (cs : List Value) :
    ∀ c, cs.foldl (chooseMode l) c ∈ c :: cs := by
  induction cs with
  | nil =>
      intro c
      simp
  | cons v vs ih =>
      intro c
      rw [List.foldl_cons]
      have hm := ih (chooseMode l c v)
      simp only [List.mem_cons] at hm ⊢
      rcases hm with h2 | h2
      · rcases chooseMode_mem l c v with h | h
        · left; rw [h2, h]
        · right; left; rw [h2, h]
      · right; right; exact h2

theorem mode_isAbsent_false (l : List Value) (m : Value) (hm : mode l = some m) :
    m.isAbsent = false := by
  rw [mode] at hm
  rcases hcands : uniqueVals (nonNullOf l) with _ | ⟨c, cs⟩
  · rw [hcands] at hm
    cases hm
  · rw [hcands] at hm
    injection hm with hm
    have hmem : m ∈ c :: cs := hm ▸ foldl_chooseMode_mem l cs c
    have hmem2 : m ∈ uniqueVals (nonNullOf l) := by rw [hcands]; exact hmem
    have h2 : m ∈ nonNullOf l := mem_dedupGo _ [] m hmem2
    rw [nonNullOf, List.mem_filter] at h2
    simpa using h2.2

theorem mode_isSome (l : List Value) (hne : nonNullOf l ≠ []) :
    ∃ m, mode l = some m := by
  rw [mode]
  rcases hcands : uniqueVals (nonNullOf l) with _ | ⟨c, cs⟩
  · exfalso
    apply hne
    rcases hnn : nonNullOf l with _ | ⟨x, xs⟩
    · rfl
    · rw [hnn, uniqueVals, dedupGo, if_neg (by simp)] at hcands
      cases hcands
  · exact ⟨_, rfl⟩

theorem fill_filter_absent_nil (col : List Value) (w : Value) (hw : w.isAbsent = false) :
    (col.map (fun v => if v.isAbsent then w else v)).filter (fun v => v.isAbsent) = [] := by
  rw [List.filter_eq_nil_iff]
  intro a ha
  rw [List.mem_map] at ha
  rcases ha with ⟨v, hv, rfl⟩
  by_cases h : v.isAbsent
  · rw [if_pos h]
    simp [hw]
  · rw [if_neg h]
    simpa using h

theorem length_insertSorted (x : Qv) (l : List Qv) :
    (insertSorted x l).length = l.length + 1 := by
  induction l with
  | nil => rfl
  | cons y ys ih =>
      rw [insertSorted]
      split
      · rfl
      · simpa [List.length_cons] using ih

theorem length_sortQ (l : List Qv) : (sortQ l).length = l.length := by
  induction l with
  | nil => rfl
  | cons x xs ih =>
      show (insertSorted x (sortQ xs)).length = xs.length + 1
      rw [length_insertSorted, ih]

theorem medianQ_isSome (l : List Qv) (hne : l ≠ []) : ∃ m, medianQ l = some m := by
  rw [medianQ]
  simp only [length_sortQ]
  have h0 : l.length ≠ 0 := fun h => hne (List.length_eq_zero.mp h)
  rw [if_neg h0]
  split
  · exact ⟨_, rfl⟩
  · exact ⟨_, rfl⟩

/-- C3: after the Missing Value Imputer stage a column holds no absent
values, except that a column with zero non-absent values and numeric
dtype (where neither the median nor the mode fallback produces a fill
value, and the empty-text fill is not reachable) is returned untouched
with nothing counted. -/
theorem c3_no_absent_after_imputation (col : List Value) :
    absentCount (handle_missing_col col).1 = 0 ∨
    (absentCount col = col.length ∧ (handle_missing_col col).1 = col ∧
      (handle_missing_col col).2 = 0) := by
  by_cases h0 : (col.filter (fun v => v.isAbsent)).length = 0
  · left
    have heq : handle_missing_col col = (col, 0) := by
      simp only [handle_missing_col]
      rw [if_pos h0]
    rw [heq]
    exact h0
  · by_cases hdt : isNumericDtype col = true
    · rcases hmed : medianQ (col.filterMap toNumeric) with _ | m
      · -- median is NaN: with numeric dtype this forces an all-absent column
        have hnums : col.filterMap toNumeric = [] := by
          by_contra hnonnil
          rcases medianQ_isSome _ hnonnil with ⟨m, hm⟩
          rw [hmed] at hm
          cases hm
        have hall : ∀ v ∈ col, v.isAbsent = true := by
          intro v hv
          have hnone : toNumeric v = none := List.filterMap_eq_nil_iff.mp hnums v hv
          cases v with
          | absent => rfl
          | num q => simp [toNumeric] at hnone
          | str s =>
              exfalso
              rw [isNumericDtype, List.all_eq_true] at hdt
              have hc := hdt (Value.str s) hv
              simp [Value.isStr] at hc
        have hnn : nonNullOf col = [] := by
          rw [nonNullOf, List.filter_eq_nil_iff]
          intro a ha
          simp [hall a ha]
        have hmode : mode col = none := by
          rw [mode, hnn]
          rfl
        have heq : handle_missing_col col = (col, 0) := by
          simp only [handle_missing_col]
          rw [if_neg h0, if_pos hdt, hmed, hmode]
        right
        refine ⟨?_, by rw [heq], by rw [heq]⟩
        rw [absentCount, List.filter_eq_self.mpr hall]
      · have heq : handle_missing_col col =
            (col.map (fun v => if v.isAbsent then Value.num m else v),
             (col.filter (fun v => v.isAbsent)).length) := by
          simp only [handle_missing_col]
          rw [if_neg h0, if_pos hdt, hmed]
        left
        rw [heq, absentCount, fill_filter_absent_nil col (Value.num m) rfl]
        rfl
    · have hstr : ∃ v ∈ col, v.isStr = true := by
        rw [isNumericDtype, List.all_eq_true] at hdt
        push_neg at hdt
        rcases hdt with ⟨v, hv, hb⟩
        refine ⟨v, hv, ?_⟩
        revert hb
        cases v <;> simp [Value.isStr]
      have hnonabs : ∃ v ∈ col, v.isAbsent = false := by
        rcases hstr with ⟨v, hv, hs⟩
        exact ⟨v, hv, isStr_isAbsent_false v hs⟩
      by_cases hdate : detect_column_type col = "date"
      · have heq : handle_missing_col col =
            (bfillL (ffillL col), (col.filter (fun v => v.isAbsent)).length) := by
          simp only [handle_missing_col]
          rw [if_neg h0, if_neg hdt, if_pos hdate]
        left
        rw [heq, absentCount, List.filter_eq_nil_iff.mpr ?_]
        · rfl
        · intro a ha
          simp [bfill_ffill_no_absent col hnonabs a ha]
      · have hnn : nonNullOf col ≠ [] := by
          rcases hnonabs with ⟨v, hv, hva⟩
          intro hnil
          have hm : v ∈ nonNullOf col := by
            rw [nonNullOf, List.mem_filter]
            exact ⟨hv, by simp [hva]⟩
          rw [hnil] at hm
          cases hm
        rcases mode_isSome col hnn with ⟨m, hm⟩
        have heq : handle_missing_col col =
            (col.map (fun v => if v.isAbsent then m else v),
             (col.filter (fun v => v.isAbsent)).length) := by
          simp only [handle_missing_col]
          rw [if_neg h0, if_neg hdt, if_neg hdate, hm]
        left
        rw [heq, absentCount, fill_filter_absent_nil col m (mode_isAbsent_false col m hm)]
        rfl

theorem pandasNe_clean_eq (v : Value) :
    pandasNe v (cleanVal v) = (decide (v ≠ cleanVal v) || v.isAbsent) := by
  cases v with
  | absent => rfl
  | num q => simp [pandasNe, cleanVal, Value.isAbsent]
  | str s => simp [pandasNe, cleanVal, Value.isAbsent]

theorem pandasNeCount_clean (c : List Value) :
    pandasNeCount c (c.map cleanVal) =
      (c.filter (fun v => decide (v ≠ cleanVal v))).length +
      (c.filter (fun v => v.isAbsent)).length := by
  induction c with
  | nil => rfl
  | cons v t ih =>
      simp only [List.map_cons, pandasNeCount, List.zip_cons_cons, List.filter_cons] at ih ⊢
      cases v with
      | absent =>
          rw [if_pos (by simp [pandasNe, Value.isAbsent]),
              if_neg (by simp [cleanVal]),
              if_pos (by simp [Value.isAbsent])]
          simp only [List.length_cons]
          omega
      | num q =>
          rw [if_neg (by simp [pandasNe, cleanVal, Value.isAbsent]),
              if_neg (by simp [cleanVal]),
              if_neg (by simp [Value.isAbsent])]
          exact ih
      | str s =>
          by_cases hs : s = clean_string s
          · rw [if_neg (by simp [pandasNe, cleanVal, Value.isAbsent, ← hs]),
                if_neg (by simp [cleanVal, ← hs]),
                if_neg (by simp [Value.isAbsent])]
            exact ih
          · rw [if_pos (by simp [pandasNe, cleanVal, Value.isAbsent, hs]),
                if_pos (by simp [cleanVal, hs]),
                if_neg (by simp [Value.isAbsent])]
            simp only [List.length_cons]
            omega

/-- C8 (amended): the running total the String Normalizer reports is
the number of values whose content differed before versus after
normalization plus the number of absent values of the object-dtype
columns (pandas' `original != cleaned` comparison counts every NaN
cell, since NaN != NaN is True); non-text values, absent values
included, pass through unchanged, and no value's absence status
changes. -/
theorem c8_amended (df : Dataset) :
    (trim_and_normalize_strings df).2 =
      ((colsOf df).map (fun c =>
        if isObjectCol c then changedCount c + absentCount c else 0)).sum ∧
    (∀ q : Qv, cleanVal (Value.num q) = Value.num q) ∧
    cleanVal Value.absent = Value.absent ∧
    (∀ v : Value, (cleanVal v).isAbsent = v.isAbsent) := by
  refine ⟨?_, fun q => rfl, rfl, fun v => by cases v <;> rfl⟩
  simp only [trim_and_normalize_strings]
  congr 1
  apply List.map_congr_left
  intro c _
  by_cases hobj : isObjectCol c = true
  · rw [if_pos hobj, if_pos hobj, pandasNeCount_clean]
    rfl
  · rw [if_neg hobj, if_neg hobj]

theorem gcdF_eq_gcd (fuel : Nat) : ∀ m n, m < fuel → gcdF fuel m n = Nat.gcd m n := by
  induction fuel with
  | zero =>
      intro m n h
      omega
  | succ f ih =>
      intro m n h
      cases m with
      | zero => simp [gcdF]
      | succ k =>
          rw [gcdF, ih (n % (k + 1)) (k + 1)
            (by have := Nat.mod_lt n (show 0 < k + 1 by omega); omega), Nat.gcd_succ]

theorem natGcd_eq (m n : Nat) : natGcd m n = Nat.gcd m n :=
  gcdF_eq_gcd (m + 1) m n (by omega)

theorem mkQ_spec (a b : Int) (hb : b ≠ 0) :
    (mkQ a b).toRat = (a : ℚ) / (b : ℚ) ∧ 0 < (mkQ a b).d := by
  rw [mkQ]
  set s : Int := if b < 0 then -1 else 1 with hs
  have hs0 : s ≠ 0 := by
    rw [hs]
    split <;> norm_num
  have hsb : 0 < s * b := by
    rw [hs]
    split
    · rename_i hbneg
      nlinarith
    · rename_i hbpos
      have hpos : 0 < b := lt_of_le_of_ne (not_lt.mp hbpos) (Ne.symm hb)
      nlinarith
  have hb1ne : s * b ≠ 0 := ne_of_gt hsb
  have hgcd : (Int.ofNat (natGcd (s * a).natAbs (s * b).natAbs)) = (Int.gcd (s * a) (s * b) : Int) := by
    rw [natGcd_eq]
    rfl
  rw [hgcd]
  set g : Int := (Int.gcd (s * a) (s * b) : Int) with hgdef
  have hgpos : 0 < g := by
    have h1 : 0 < Int.gcd (s * a) (s * b) := Int.gcd_pos_iff.mpr (Or.inr hb1ne)
    rw [hgdef]
    exact_mod_cast h1
  have hgne : g ≠ 0 := ne_of_gt hgpos
  rw [if_neg hgne]
  obtain ⟨a2, ha2⟩ : g ∣ s * a := Int.gcd_dvd_left
  obtain ⟨b2, hb2⟩ : g ∣ s * b := Int.gcd_dvd_right
  have hda : s * a / g = a2 := by
    rw [ha2, Int.mul_ediv_cancel_left _ hgne]
  have hdb : s * b / g = b2 := by
    rw [hb2, Int.mul_ediv_cancel_left _ hgne]
  rw [hda, hdb]
  have hgQ : ((g : ℚ)) ≠ 0 := by exact_mod_cast hgne
  have hsQ : ((s : ℚ)) ≠ 0 := by exact_mod_cast hs0
  constructor
  · rw [Qv.toRat]
    have h1 : ((a2 : ℚ)) / ((b2 : ℚ)) = ((s * a : Int) : ℚ) / ((s * b : Int) : ℚ) := by
      rw [ha2, hb2]
      push_cast
      rw [mul_div_mul_left _ _ hgQ]
    rw [h1]
    push_cast
    rw [mul_div_mul_left _ _ hsQ]
  · show 0 < b2
    have hb2pos : 0 < g * b2 := hb2 ▸ hsb
    nlinarith [hb2pos, hgpos]

theorem mkQ_toRat (a b : Int) (hb : b ≠ 0) : (mkQ a b).toRat = (a : ℚ) / (b : ℚ) :=
  (mkQ_spec a b hb).1

theorem mkQ_d_pos (a b : Int) (hb : b ≠ 0) : 0 < (mkQ a b).d :=
  (mkQ_spec a b hb).2

theorem ofNat_toRat (k : Nat) : (Qv.ofNat k).toRat = (k : ℚ) := by
  simp [Qv.ofNat, Qv.toRat]

theorem ofNat_d_pos (k : Nat) : 0 < (Qv.ofNat k).d := by
  simp [Qv.ofNat]

theorem div_toRat (x y : Qv) (hx : 0 < x.d) (hy : 0 < y.d) (hyn : y.n ≠ 0) :
    (Qv.div x y).toRat = x.toRat / y.toRat := by
  rw [Qv.div, if_neg hyn, mkQ_toRat _ _ (mul_ne_zero (ne_of_gt hx) hyn), Qv.toRat, Qv.toRat]
  have hx' : ((x.d : ℚ)) ≠ 0 := by exact_mod_cast ne_of_gt hx
  have hy' : ((y.d : ℚ)) ≠ 0 := by exact_mod_cast ne_of_gt hy
  have hyn' : ((y.n : ℚ)) ≠ 0 := by exact_mod_cast hyn
  push_cast
  field_simp

theorem div_d_pos (x y : Qv) (hx : 0 < x.d) : 0 < (Qv.div x y).d := by
  rw [Qv.div]
  split
  · norm_num
  · rename_i hyn
    exact mkQ_d_pos _ _ (mul_ne_zero (ne_of_gt hx) hyn)

theorem mul_toRat (x y : Qv) (hx : 0 < x.d) (hy : 0 < y.d) :
    (Qv.mul x y).toRat = x.toRat * y.toRat := by
  rw [Qv.mul, mkQ_toRat _ _ (mul_ne_zero (ne_of_gt hx) (ne_of_gt hy)), Qv.toRat, Qv.toRat]
  push_cast
  rw [div_mul_div_comm]

/-- C9: whenever the selected narrative generator fails (the external
call raises), `generate_ai_report` returns the deterministic templated
fallback report built from the summary counters alone, and the
rows-removed percentage that report interpolates equals
`rows_removed / max(original_rows, 1) * 100`. -/
theorem c9_fallback_report (co cg : Option String) (p : String) (s : Summary) :
    (lowerStr p = "openai" → generate_ai_report none cg p s = fallback_report s) ∧
    (lowerStr p = "groq" → generate_ai_report co none p s = fallback_report s) ∧
    (fallbackPct s).toRat =
      (s.rows_removed : ℚ) / ((max s.original_rows 1 : Nat) : ℚ) * 100 := by
  refine ⟨?_, ?_, ?_⟩
  · intro hp
    rw [generate_ai_report, if_pos hp]
    rfl
  · intro hp
    rw [generate_ai_report, if_neg (by rw [hp]; decide), if_pos hp]
    rfl
  · have hmax : max s.original_rows 1 ≠ 0 := by omega
    have hmaxZ : (Qv.ofNat (max s.original_rows 1)).n ≠ 0 := by
      simp only [Qv.ofNat]
      exact_mod_cast hmax
    rw [fallbackPct,
      mul_toRat _ _ (div_d_pos _ _ (ofNat_d_pos _)) (ofNat_d_pos _),
      div_toRat _ _ (ofNat_d_pos _) (ofNat_d_pos _) hmaxZ,
      ofNat_toRat, ofNat_toRat, ofNat_toRat]
    norm_num

theorem c9_witness :
    generate_ai_report none none "openai"
        { original_rows := 10, cleaned_rows := 8, rows_removed := 2, columns := 3,
          missing_values_handled := 1, outliers_replaced := 1, date_columns_fixed := 0,
          duplicates_removed := 2 } =
      fallback_report
        { original_rows := 10, cleaned_rows := 8, rows_removed := 2, columns := 3,
          missing_values_handled := 1, outliers_replaced := 1, date_columns_fixed := 0,
          duplicates_removed := 2 } :=
  (c9_fallback_report none none "openai"
    { original_rows := 10, cleaned_rows := 8, rows_removed := 2, columns := 3,
      missing_values_handled := 1, outliers_replaced := 1, date_columns_fixed := 0,
      duplicates_removed := 2 }).1 (by decide)
